import Mathlib

/-!
Shallow embedding of the example notebook
`examples/notebooks/20_Using_huggingface_within_widedeep.ipynb` of the
pytorch-widedeep repository, together with theorems settling the claims
about its cleaning pipeline, tokenizer configuration, model construction,
training/evaluation calls and error behaviour.

The notebook is glue code over pandas, huggingface and the
pytorch-widedeep library.  The pandas-style cleaning cells are embedded
directly from the notebook source as functions on lists of rows.  Library
code that is not part of the provided sources (HFPreprocessor, HFModel,
WideDeep, Trainer, the sklearn metric functions) is modelled from the
spec; each such definition carries a doc comment starting
`Modelled from the spec:`.
-/

namespace HFWD

/-- A row of the women's e-commerce reviews dataframe, restricted to the
columns the notebook's code actually touches: the integer `rating`, the
possibly missing (`NaN`) free-text `review_text`, and the values of the
remaining columns, which the notebook never modifies, collected in
`other_cols`. -/
structure Row where
  rating : Int
  review_text : Option String
  other_cols : List String
deriving DecidableEq, Repr

/-! ### Cell 5: column renaming and label remapping -/

/-- Embeds the column renaming
`df.columns = [c.replace(" ", "_").lower() for c in df.columns]`.
Replacing the single-character pattern `" "` by `"_"` and then
lower-casing acts character by character: a space becomes an
underscore, every other character is lower-cased. -/
def renameColumn (c : String) : String :=
  String.mk (c.data.map fun ch => if ch = ' ' then '_' else ch.toLower)

/-- Embeds the three rating-rewriting statements of the notebook:
`df["rating"] = (df["rating"] - 1).astype("int64")`, then
`df.loc[df.rating == 0, "rating"] = 1`, then
`df["rating"] = (df["rating"] - 1).astype("int64")` — applied to one
rating value. -/
def remapRating (r : Int) : Int :=
  let r1 := r - 1
  let r2 := if r1 = 0 then 1 else r1
  r2 - 1

/-- The rating-rewriting cell applied to the whole dataframe: only the
`rating` column is rewritten, every other column is untouched. -/
def remapStep (rows : List Row) : List Row :=
  rows.map fun r => { r with rating := remapRating r.rating }

/-! ### Cell 6: short-review filtering -/

/-- Python's `str.split(" ")` on a character list: the text is cut at
every single space, and empty pieces are kept (`"".split(" ") == [""]`,
`"a  b".split(" ") == ["a", "", "b"]`). -/
def pySplitSpace : List Char → List (List Char)
  | [] => [[]]
  | c :: cs =>
    match pySplitSpace cs, decide (c = ' ') with
    | rest, true => [] :: rest
    | [], false => [[c]]
    | w :: ws, false => (c :: w) :: ws

/-- Embeds `len(x.split(" "))` for a review text `x`. -/
def reviewWordCount (s : String) : Nat :=
  (pySplitSpace s.data).length

/-- The predicate characterising the rows that survive cell 6: a
non-null review text whose `split(" ")` has at least 5 pieces. -/
def keepReview (r : Row) : Bool :=
  match r.review_text with
  | some s => 5 ≤ reviewWordCount s
  | none => false

/-- Embeds cell 6 of the notebook:
`df = df[~df.review_text.isna()]`,
`df["review_length"] = df.review_text.apply(lambda x: len(x.split(" ")))`,
`df = df[df.review_length >= 5]`,
`df = df.drop("review_length", axis=1).reset_index(drop=True)`.
The temporary `review_length` column is the second component of the
intermediate pairs and is dropped by the final `map Prod.fst`; on the
post-`isna` rows `review_text` is always `some`, the `getD 0` default is
unreachable.  `reset_index` does not reorder rows. -/
def shortReviewFilter (rows : List Row) : List Row :=
  let nonNull := rows.filter fun r => r.review_text.isSome
  let withLen := nonNull.map fun r => (r, (r.review_text.map reviewWordCount).getD 0)
  (withLen.filter fun p => 5 ≤ p.2).map Prod.fst

/-! ### Cell 9: class-balanced subsampling

`df = df.groupby("rating", group_keys=False)
        .apply(lambda x: x.sample(min(len(x), 2369)))
        .sample(1000)`

`DataFrame.sample(n)` draws `n` distinct rows uniformly at random (and
raises when `n` exceeds the population).  Randomness is embedded by
passing the drawing function `sel` as a parameter; the theorems assume
only what pandas guarantees: `sel xs n` consists of `n` of the rows of
`xs`, i.e. it is a sub-permutation of `xs` of length `n`. -/

/-- The rows of the dataframe whose rating equals `k` (one group of
`df.groupby("rating")`). -/
def groupRows (rows : List Row) (k : Int) : List Row :=
  rows.filter fun r => r.rating == k

/-- The distinct rating values appearing in the dataframe (the group
keys).  The order in which `dedup` lists the keys does not matter for
any property proved below. -/
def ratingKeys (rows : List Row) : List Int :=
  (rows.map fun r => r.rating).dedup

/-- The `groupby("rating", group_keys=False).apply(lambda x:
x.sample(min(len(x), 2369)))` part: each group is sampled down to
`min(len(x), 2369)` rows and the groups are concatenated. -/
def sampleGroups (sel : List Row → Nat → List Row) (rows : List Row) : List Row :=
  (ratingKeys rows).flatMap fun k =>
    sel (groupRows rows k) (min (groupRows rows k).length 2369)

/-- The whole cell-9 pipeline: group-wise capped sampling followed by
`.sample(1000)`, which raises (here: `none`) when fewer than 1000 rows
remain. -/
def subsampleStep (sel : List Row → Nat → List Row) (rows : List Row) :
    Option (List Row) :=
  if 1000 ≤ (sampleGroups sel rows).length then
    some (sel (sampleGroups sel rows) 1000)
  else none

/-- Cells 5, 6 and 9 composed: the notebook's whole cleaning pipeline on
the loaded dataframe. -/
def cleanPipeline (sel : List Row → Nat → List Row) (rows : List Row) :
    Option (List Row) :=
  subsampleStep sel (shortReviewFilter (remapStep rows))

/-- The number of rows of rating class `k` in a dataframe. -/
def classCount (rows : List Row) (k : Int) : Nat :=
  rows.countP fun r => r.rating == k

/-! ### Cells 12/13: the tokenizer wrapper and its two calling
conventions

`HFPreprocessor` and the huggingface tokenizer it wraps are not part of
the provided sources (only the notebook that calls them is), so they are
modelled from the spec below. -/

/-- The keyword arguments handed to the tokenizer's encoding call:
`max_length`, `padding`, `truncation`, `add_special_tokens`. -/
structure EncodeParams where
  max_length : Nat
  padding : String
  truncation : Bool
  add_special_tokens : Bool
deriving DecidableEq, Repr

/-- The id the tokenizer pads with. -/
def hfPadId : Nat := 0

/-- Modelled from the spec: the padding/truncation policy supplied as
configuration to the external tokenizer — with `truncation` enabled the
token ids are cut to `max_length`, and with `padding = "max_length"`
they are padded up to `max_length`. -/
def applyPadTrunc (p : EncodeParams) (ids : List Nat) : List Nat :=
  let t := if p.truncation then ids.take p.max_length else ids
  if p.padding = "max_length" then
    t ++ List.replicate (p.max_length - t.length) hfPadId
  else t

/-- Modelled from the spec: encoding one text with the pretrained
tokenizer.  The subword algorithm itself is an external library whose
internals are explicitly out of scope; it enters as the parameter
`tok` (which already reflects `add_special_tokens`), and the
configuration-driven padding/truncation is applied on top of it. -/
def hfEncode (tok : String → List Nat) (p : EncodeParams) (s : String) :
    List Nat :=
  applyPadTrunc p (tok s)

/-- Modelled from the spec: the constructor arguments of the
`HFPreprocessor` tokenizer wrapper as used in the notebook. -/
structure HFPreprocessor where
  model_name : String
  text_col : Option String := none
  num_workers : Nat := 1
  encode_params : Option EncodeParams := none

/-- Modelled from the spec: `fit_transform` extracts the `text_col`
column of the dataframe (the notebook's text column is `review_text`)
and encodes every entry with the stored `encode_params`. -/
def HFPreprocessor.fit_transform (pp : HFPreprocessor)
    (tok : String → List Nat) (rows : List Row) : List (List Nat) :=
  rows.map fun r =>
    hfEncode tok (pp.encode_params.getD ⟨0, "", false, false⟩)
      (r.review_text.getD "")

/-- Modelled from the spec: after fitting, `transform` encodes a new
dataframe the same way. -/
def HFPreprocessor.transform (pp : HFPreprocessor)
    (tok : String → List Nat) (rows : List Row) : List (List Nat) :=
  pp.fit_transform tok rows

/-- Modelled from the spec: the direct `encode` convention — a list of
texts and the encoding keyword arguments are passed explicitly. -/
def HFPreprocessor.encode (_pp : HFPreprocessor)
    (tok : String → List Nat) (texts : List String) (p : EncodeParams) :
    List (List Nat) :=
  texts.map fun s => hfEncode tok p s

/-- The model name chosen in cell 10. -/
def notebookModelName : String := "distilbert-base-uncased"

/-- The `encode_params` literal of cell 12 (also passed verbatim to the
two `encode` calls of cell 13). -/
def notebookEncodeParams : EncodeParams :=
  { max_length := 90, padding := "max_length", truncation := true,
    add_special_tokens := true }

/-- Cell 12: `tokenizer1 = HFPreprocessor(model_name=model_name,
text_col="review_text", num_workers=1, encode_params={...})`. -/
def tokenizer1 : HFPreprocessor :=
  { model_name := notebookModelName, text_col := some "review_text",
    num_workers := 1,
    encode_params := some ⟨90, "max_length", true, true⟩ }

/-- Cell 13: `tokenizer2 = HFPreprocessor(model_name=model_name,
num_workers=1)`. -/
def tokenizer2 : HFPreprocessor :=
  { model_name := notebookModelName, num_workers := 1 }

/-- Embeds `train.review_text.tolist()` / `test.review_text.tolist()`. -/
def reviewTexts (rows : List Row) : List String :=
  rows.map fun r => r.review_text.getD ""

/-- Cell 12: `X_text_tr1 = tokenizer1.fit_transform(train)`. -/
def X_text_tr1 (tok : String → List Nat) (train : List Row) :
    List (List Nat) :=
  tokenizer1.fit_transform tok train

/-- Cell 12: `X_text_te1 = tokenizer1.transform(test)`. -/
def X_text_te1 (tok : String → List Nat) (test : List Row) :
    List (List Nat) :=
  tokenizer1.transform tok test

/-- Cell 13: `X_text_tr2 = tokenizer2.encode(train.review_text.tolist(),
max_length=90, padding="max_length", truncation=True,
add_special_tokens=True)`. -/
def X_text_tr2 (tok : String → List Nat) (train : List Row) :
    List (List Nat) :=
  tokenizer2.encode tok (reviewTexts train)
    { max_length := 90, padding := "max_length", truncation := true,
      add_special_tokens := true }

/-- Cell 13: the same direct `encode` call on the test split. -/
def X_text_te2 (tok : String → List Nat) (test : List Row) :
    List (List Nat) :=
  tokenizer2.encode tok (reviewTexts test)
    { max_length := 90, padding := "max_length", truncation := true,
      add_special_tokens := true }

/-! ### Cells 15/16: model construction and the training call -/

/-- Modelled from the spec: the pretrained transformer wrapper `HFModel`
as constructed in cell 15 — only its identity (the chosen checkpoint)
matters to the claims. -/
structure HFModel where
  model_name : String
deriving DecidableEq, Repr

/-- Cell 15: `hf_model = HFModel(model_name=model_name)`. -/
def hf_model : HFModel := { model_name := notebookModelName }

/-- Modelled from the spec: the composite `WideDeep` predictor with its
optional wide/deep tabular/text/image branches, every branch absent by
default. -/
structure WideDeep where
  wide : Option Unit := none
  deeptabular : Option Unit := none
  deeptext : Option HFModel := none
  deepimage : Option Unit := none
  pred_dim : Nat := 1
deriving DecidableEq, Repr

/-- Cell 16: `model = WideDeep(deeptext=hf_model, pred_dim=4)`. -/
def widedeep_model : WideDeep := { deeptext := some hf_model, pred_dim := 4 }

/-- How many of the composite model's optional branches are plugged
in. -/
def pluggedBranchCount (m : WideDeep) : Nat :=
  (if m.wide.isSome then 1 else 0) + (if m.deeptabular.isSome then 1 else 0) +
    (if m.deeptext.isSome then 1 else 0) +
    (if m.deepimage.isSome then 1 else 0)

/-- One step report of the trainer: the per-step loss and the two
configured metrics. -/
structure StepReport where
  loss : Rat
  accuracy : Rat
  f1 : Rat
deriving DecidableEq, Repr

/-- The arguments of cell 16's `Trainer(...)`/`trainer.fit(...)` calls
that the claims are about. -/
structure FitCall where
  objective : String
  metrics : List String
  n_epochs : Nat
  batch_size : Nat

/-- Cell 16: `Trainer(model, objective="multiclass",
metrics=[Accuracy(), F1Score(average=True)])` and `trainer.fit(...,
n_epochs=1, batch_size=64)`. -/
def notebookFitCall : FitCall :=
  { objective := "multiclass", metrics := ["Accuracy", "F1Score"],
    n_epochs := 1, batch_size := 64 }

/-- Modelled from the spec: the external generic trainer runs
`nEpochs` epochs of `ceil(nSamples / batchSize)` mini-batch steps and
reports loss/accuracy/F1 at each step; `report` abstracts the numeric
values the optimizer produces. -/
def trainerFit (report : Nat → Nat → StepReport)
    (nSamples nEpochs batchSize : Nat) : List (List StepReport) :=
  (List.range nEpochs).map fun e =>
    (List.range ((nSamples + batchSize - 1) / batchSize)).map fun b =>
      report e b

/-! ### Cell 17: prediction and evaluation -/

/-- Tail of `np.argmax` over one row: scans the remaining entries,
keeping the first index at which the running maximum was attained. -/
def argmaxGo : List Rat → Nat → Nat → Rat → Nat
  | [], _, best, _ => best
  | y :: ys, i, best, bv =>
    if bv < y then argmaxGo ys (i + 1) i y else argmaxGo ys (i + 1) best bv

/-- Embeds `np.argmax` over one row of class probabilities: the first index of
the maximal entry (0 on an empty row). -/
def npArgmax : List Rat → Nat
  | [] => 0
  | x :: xs => argmaxGo xs 1 0 x

/-- Cell 17: `pred_text_class = np.argmax(preds_text, 1)`. -/
def pred_text_class (preds : List (List Rat)) : List Nat :=
  preds.map npArgmax

/-- Modelled from the spec: sklearn's `accuracy_score` — the fraction of
positions where prediction and truth agree. -/
def accuracy_score (yTrue : List Int) (yPred : List Nat) : Rat :=
  (((yTrue.zip (yPred.map Int.ofNat)).countP fun p => p.1 == p.2 : Nat) : Rat)
    / (yTrue.length : Rat)

/-- Cell 17: `acc_text = accuracy_score(test.rating, pred_text_class)`. -/
def acc_text (preds : List (List Rat)) (testRatings : List Int) : Rat :=
  accuracy_score testRatings (pred_text_class preds)

/-- Cell 17: `f1_text = f1_score(test.rating, pred_text_class,
average="weighted")`; sklearn's `f1_score` is an external metric
function and enters abstractly as `f1fn`. -/
def f1_text (f1fn : List Int → List Nat → String → Rat)
    (preds : List (List Rat)) (testRatings : List Int) : Rat :=
  f1fn testRatings (pred_text_class preds) "weighted"

/-- Modelled from the spec: `trainer.predict_proba` returns, for each of
the `nSamples` test inputs, one probability per class — a row of length
`pred_dim`; the numeric values come from the trained network and enter
abstractly as `probs`. -/
def predict_proba (probs : Nat → Nat → Rat) (m : WideDeep)
    (nSamples : Nat) : List (List Rat) :=
  (List.range nSamples).map fun i =>
    (List.range m.pred_dim).map fun c => probs i c

/-- The distinct class labels produced by the rating remapping of cell 5
on the raw ratings 1..5. -/
def remappedClasses : List Int :=
  (([1, 2, 3, 4, 5] : List Int).map remapRating).dedup

/-! ### Error behaviour -/

/-- Cell 6 as a fallible step: pandas boolean-mask filtering never
raises on missing values — rows whose `review_text` is `NaN` are simply
dropped — so the step always returns `ok`. -/
def filterStepExc (rows : List Row) : Except String (List Row) :=
  .ok (shortReviewFilter rows)

/-- The notebook's cleaning pipeline threaded through `Except`: the
notebook installs no `try/except` handler, so an upstream library error
(`load`) passes straight through `bind`, and the one failure the
notebook's own cells can trigger — `.sample(1000)` on fewer than 1000
rows — surfaces as the pandas `ValueError` text. -/
def pipelineExc (load : Except String (List Row))
    (sel : List Row → Nat → List Row) : Except String (List Row) :=
  load.bind fun df =>
    match subsampleStep sel (shortReviewFilter (remapStep df)) with
    | some out => .ok out
    | none => .error "Cannot take a larger sample than population"

/-- A review row whose `review_text` is missing (`NaN`). -/
def missingRow : Row := { rating := 5, review_text := none, other_cols := [] }

/-! ### Helper lemmas on the cleaning pipeline -/

/-- Cell 6 is exactly a row filter by `keepReview`. -/
theorem shortReviewFilter_eq_filter (rows : List Row) :
    shortReviewFilter rows = rows.filter keepReview := by
  induction rows with
  | nil => rfl
  | cons r rs ih =>
    unfold shortReviewFilter at ih ⊢
    cases hrt : r.review_text with
    | none => simp [List.filter_cons, keepReview, hrt, ih]
    | some s =>
      by_cases h5 : 5 ≤ reviewWordCount s
      · simp [List.filter_cons, keepReview, hrt, h5, ih]
      · simp [List.filter_cons, keepReview, hrt, h5, ih]

/-- Every row of a `groupby("rating")` group carries that group's key as
its rating. -/
theorem rating_of_mem_groupRows {rows : List Row} {k : Int} {r : Row}
    (h : r ∈ groupRows rows k) : r.rating = k := by
  have h2 := (List.mem_filter.1 h).2
  exact eq_of_beq h2

/-- A sampled group for a key other than `k` contributes no rows of
rating `k`. -/
theorem countP_sel_group_eq_zero (sel : List Row → Nat → List Row)
    (hsel : ∀ xs n, List.Subperm (sel xs n) xs)
    (rows : List Row) {k k' : Int} (hne : k' ≠ k) (m : Nat) :
    ((sel (groupRows rows k') m).countP fun r => r.rating == k) = 0 := by
  refine List.countP_eq_zero.2 fun r hr => ?_
  have hmem : r ∈ groupRows rows k' := (hsel (groupRows rows k') m).subset hr
  have : r.rating = k' := rating_of_mem_groupRows hmem
  simp [this, hne]

/-- A key list without `k` contributes no rows of rating `k` to the
concatenation of sampled groups. -/
theorem countP_flatMap_eq_zero (sel : List Row → Nat → List Row)
    (hsel : ∀ xs n, List.Subperm (sel xs n) xs)
    (rows : List Row) (k : Int) :
    ∀ ks : List Int, k ∉ ks →
      ((ks.flatMap fun j =>
          sel (groupRows rows j) (min (groupRows rows j).length 2369)).countP
        fun r => r.rating == k) = 0 := by
  intro ks
  induction ks with
  | nil => intro _; rfl
  | cons j js ih =>
    intro hk
    have hj : j ≠ k := fun h => hk (h ▸ List.mem_cons_self j js)
    have hks : k ∉ js := fun h => hk (List.mem_cons_of_mem j h)
    simp only [List.flatMap_cons, List.countP_append]
    rw [countP_sel_group_eq_zero sel hsel rows hj, ih hks]

/-- Over a duplicate-free key list, the concatenation of the capped
group samples holds at most `min (classCount rows k) 2369` rows of
rating `k`. -/
theorem countP_flatMap_sample_le (sel : List Row → Nat → List Row)
    (hlen : ∀ xs n, n ≤ xs.length → (sel xs n).length = n)
    (hsel : ∀ xs n, List.Subperm (sel xs n) xs)
    (rows : List Row) (k : Int) :
    ∀ ks : List Int, ks.Nodup →
      ((ks.flatMap fun j =>
          sel (groupRows rows j) (min (groupRows rows j).length 2369)).countP
        fun r => r.rating == k) ≤ min (classCount rows k) 2369 := by
  intro ks
  induction ks with
  | nil => intro _; exact Nat.zero_le _
  | cons j js ih =>
    intro hnd
    simp only [List.flatMap_cons, List.countP_append]
    by_cases hjk : j = k
    · subst hjk
      have hnotin : j ∉ js := (List.nodup_cons.1 hnd).1
      rw [countP_flatMap_eq_zero sel hsel rows j js hnotin]
      have hm : min (groupRows rows j).length 2369 ≤ (groupRows rows j).length :=
        Nat.min_le_left _ _
      have hlen2 := hlen (groupRows rows j) (min (groupRows rows j).length 2369) hm
      have hc : ((sel (groupRows rows j)
            (min (groupRows rows j).length 2369)).countP
          fun r => r.rating == j) ≤ min (groupRows rows j).length 2369 := by
        calc ((sel (groupRows rows j)
              (min (groupRows rows j).length 2369)).countP
            fun r => r.rating == j)
            ≤ (sel (groupRows rows j)
              (min (groupRows rows j).length 2369)).length :=
              List.countP_le_length _
          _ = min (groupRows rows j).length 2369 := hlen2
      have hg : (groupRows rows j).length = classCount rows j := by
        simp [groupRows, classCount, List.countP_eq_length_filter]
      omega
    · rw [countP_sel_group_eq_zero sel hsel rows hjk]
      have := ih (List.nodup_cons.1 hnd).2
      omega

/-- Every row of the concatenated group samples is a row of the input
dataframe. -/
theorem mem_of_mem_sampleGroups (sel : List Row → Nat → List Row)
    (hsel : ∀ xs n, List.Subperm (sel xs n) xs)
    {rows : List Row} {r : Row} (h : r ∈ sampleGroups sel rows) :
    r ∈ rows := by
  obtain ⟨k, _, hr⟩ := List.mem_flatMap.1 h
  have := (hsel (groupRows rows k) (min (groupRows rows k).length 2369)).subset hr
  exact (List.mem_filter.1 this).1

/-- Deduplicating a non-empty constant list leaves the one value. -/
theorem dedup_replicate_succ (a : Int) (n : Nat) :
    (List.replicate (n + 1) a).dedup = [a] := by
  induction n with
  | zero => simp
  | succ m ih =>
    rw [List.replicate_succ, List.dedup_cons_of_mem (by simp)]
    exact ih

/-- On a constant 1000-row dataframe, the cell-9 subsampling with a
take-the-first-rows drawing function returns the dataframe itself. -/
theorem subsample_take_replicate (r : Row) :
    subsampleStep (fun xs n => xs.take n) (List.replicate 1000 r) =
      some (List.replicate 1000 r) := by
  have hkeys : ratingKeys (List.replicate 1000 r) = [r.rating] := by
    unfold ratingKeys
    rw [List.map_replicate]
    exact dedup_replicate_succ r.rating 999
  have hgroup : groupRows (List.replicate 1000 r) r.rating =
      List.replicate 1000 r := by
    unfold groupRows
    rw [List.filter_replicate]
    simp
  have hsg : sampleGroups (fun xs n => xs.take n) (List.replicate 1000 r) =
      List.replicate 1000 r := by
    unfold sampleGroups
    rw [hkeys]
    simp only [List.flatMap_cons, List.flatMap_nil, List.append_nil, hgroup,
      List.length_replicate, List.take_replicate]
    norm_num
  unfold subsampleStep
  rw [hsg]
  simp only [List.length_replicate, le_refl, if_pos, List.take_replicate]
  norm_num

/-- The whole cleaning pipeline on 1000 identical five-star five-word
reviews: the rating is remapped to 3 and all rows survive. -/
theorem clean_take_replicate :
    cleanPipeline (fun xs n => xs.take n)
        (List.replicate 1000 (Row.mk 5 (some "a b c d e") [])) =
      some (List.replicate 1000 (Row.mk 3 (some "a b c d e") [])) := by
  unfold cleanPipeline
  have h1 : remapStep (List.replicate 1000 (Row.mk 5 (some "a b c d e") [])) =
      List.replicate 1000 (Row.mk 3 (some "a b c d e") []) := by
    unfold remapStep
    rw [List.map_replicate]
    exact congrArg (List.replicate 1000) (by decide)
  have h2 : shortReviewFilter
      (List.replicate 1000 (Row.mk 3 (some "a b c d e") [])) =
      List.replicate 1000 (Row.mk 3 (some "a b c d e") []) := by
    rw [shortReviewFilter_eq_filter, List.filter_replicate]
    have : keepReview (Row.mk 3 (some "a b c d e") []) = true := by decide
    rw [this]
    simp
  rw [h1, h2, subsample_take_replicate]

/-! ### The claims -/

/-- C2: the label remapping of cell 5 maps every original rating
`r ∈ {1,2,3,4,5}` to `max (r - 2) 0` — ratings 1 and 2 collapse to
class 0 and ratings 3, 4, 5 become classes 1, 2, 3 — so every remapped
rating lies in the contiguous range `[0, 4)`. -/
theorem remap_rating_spec (r : Int) (h : r ∈ ([1, 2, 3, 4, 5] : List Int)) :
    remapRating r = max (r - 2) 0 ∧ 0 ≤ remapRating r ∧ remapRating r < 4 := by
  fin_cases h <;> decide

/-- Witness for C2 at the original rating 1. -/
theorem remap_rating_spec_witness :
    (1 : Int) ∈ ([1, 2, 3, 4, 5] : List Int) ∧
      (remapRating 1 = max (1 - 2) 0 ∧ 0 ≤ remapRating 1 ∧ remapRating 1 < 4) :=
  ⟨by decide, remap_rating_spec 1 (by decide)⟩

/-- C3: cell 6 keeps exactly the rows whose `review_text` is non-null
and splits into at least 5 space-separated pieces (the `keepReview`
filter, with the temporary `review_length` column dropped from the
result), and hence every surviving row has a non-null `review_text` of
at least 5 space-separated words. -/
theorem short_review_filter_spec (rows : List Row) :
    shortReviewFilter rows = rows.filter keepReview ∧
      ∀ r ∈ shortReviewFilter rows,
        ∃ s, r.review_text = some s ∧ 5 ≤ reviewWordCount s := by
  refine ⟨shortReviewFilter_eq_filter rows, fun r hr => ?_⟩
  rw [shortReviewFilter_eq_filter] at hr
  have hk := (List.mem_filter.1 hr).2
  cases hrt : r.review_text with
  | none => simp [keepReview, hrt] at hk
  | some s =>
    refine ⟨s, rfl, ?_⟩
    simpa [keepReview, hrt] using hk

/-- Witness for C3 on a three-row dataframe holding a five-word review,
a null review and a two-word review. -/
theorem short_review_filter_spec_witness :
    (shortReviewFilter
        [Row.mk 4 (some "love this dress so much") [],
          Row.mk 2 none [], Row.mk 1 (some "too small") []] =
      ([Row.mk 4 (some "love this dress so much") [],
          Row.mk 2 none [], Row.mk 1 (some "too small") []].filter keepReview)) ∧
      ∃ s, (Row.mk 4 (some "love this dress so much") []).review_text = some s ∧
        5 ≤ reviewWordCount s :=
  ⟨(short_review_filter_spec _).1,
    (short_review_filter_spec
        [Row.mk 4 (some "love this dress so much") [],
          Row.mk 2 none [], Row.mk 1 (some "too small") []]).2
      (Row.mk 4 (some "love this dress so much") []) (by decide)⟩

/-- C8: whenever cell 9's subsampling succeeds (pandas raises
otherwise), for any drawing function that picks the requested number of
rows from the population, the result has exactly 1000 rows, and every
rating class contributes at most `min` of its original size and 2369
rows. -/
theorem subsample_step_spec (sel : List Row → Nat → List Row)
    (hlen : ∀ xs n, n ≤ xs.length → (sel xs n).length = n)
    (hsel : ∀ xs n, List.Subperm (sel xs n) xs)
    (rows out : List Row) (hout : subsampleStep sel rows = some out) :
    out.length = 1000 ∧
      ∀ k : Int, classCount out k ≤ min (classCount rows k) 2369 := by
  unfold subsampleStep at hout
  by_cases hg : 1000 ≤ (sampleGroups sel rows).length
  · rw [if_pos hg] at hout
    injection hout with hout
    subst hout
    refine ⟨hlen _ 1000 hg, fun k => ?_⟩
    have h1 : classCount (sel (sampleGroups sel rows) 1000) k ≤
        classCount (sampleGroups sel rows) k :=
      (hsel (sampleGroups sel rows) 1000).countP_le _
    have h2 : classCount (sampleGroups sel rows) k ≤
        min (classCount rows k) 2369 :=
      countP_flatMap_sample_le sel hlen hsel rows k
        (ratingKeys rows) (List.nodup_dedup _)
    exact le_trans h1 h2
  · rw [if_neg hg] at hout
    cases hout

/-- Witness for C8: take-the-first-rows drawing on a constant 1000-row
dataframe of rating 5. -/
theorem subsample_step_spec_witness :
    (List.replicate 1000 (Row.mk 5 (some "a b c d e") [])).length = 1000 ∧
      classCount (List.replicate 1000 (Row.mk 5 (some "a b c d e") [])) 5 ≤
        min (classCount (List.replicate 1000 (Row.mk 5 (some "a b c d e") [])) 5)
          2369 :=
  have h := subsample_step_spec (fun xs n => xs.take n)
    (fun xs n hn => by simpa using hn)
    (fun xs n => (List.take_sublist n xs).subperm)
    (List.replicate 1000 (Row.mk 5 (some "a b c d e") []))
    (List.replicate 1000 (Row.mk 5 (some "a b c d e") []))
    (subsample_take_replicate (Row.mk 5 (some "a b c d e") []))
  ⟨h.1, h.2 5⟩

/-- C10: the cleaning pipeline renames columns (names only), rewrites
only the `rating` column, and drops whole rows, so every row that
survives cleaning carries the `review_text` (and every other non-rating
column) of a row of the originally loaded dataframe unchanged. -/
theorem clean_pipeline_preserves_review_text (sel : List Row → Nat → List Row)
    (hsel : ∀ xs n, List.Subperm (sel xs n) xs)
    (rows out : List Row) (hout : cleanPipeline sel rows = some out) :
    renameColumn "Review Text" = "review_text" ∧
      ∀ r ∈ out, ∃ r₀ ∈ rows,
        r.review_text = r₀.review_text ∧ r.other_cols = r₀.other_cols := by
  refine ⟨by decide, fun r hr => ?_⟩
  unfold cleanPipeline subsampleStep at hout
  by_cases hg : 1000 ≤
      (sampleGroups sel (shortReviewFilter (remapStep rows))).length
  · rw [if_pos hg] at hout
    injection hout with hout
    subst hout
    have h1 : r ∈ sampleGroups sel (shortReviewFilter (remapStep rows)) :=
      (hsel _ 1000).subset hr
    have h2 : r ∈ shortReviewFilter (remapStep rows) :=
      mem_of_mem_sampleGroups sel hsel h1
    rw [shortReviewFilter_eq_filter] at h2
    have h3 : r ∈ remapStep rows := (List.mem_filter.1 h2).1
    obtain ⟨r₀, hr₀, hmap⟩ := List.mem_map.1 h3
    exact ⟨r₀, hr₀, by rw [← hmap], by rw [← hmap]⟩
  · rw [if_neg hg] at hout
    cases hout

/-- Witness for C10: on 1000 identical five-star reviews the surviving
row keeps its review text. -/
theorem clean_pipeline_preserves_review_text_witness :
    renameColumn "Review Text" = "review_text" ∧
      ∃ r₀ ∈ List.replicate 1000 (Row.mk 5 (some "a b c d e") []),
        (Row.mk 3 (some "a b c d e") []).review_text = r₀.review_text ∧
          (Row.mk 3 (some "a b c d e") []).other_cols = r₀.other_cols :=
  have h := clean_pipeline_preserves_review_text (fun xs n => xs.take n)
    (fun xs n => (List.take_sublist n xs).subperm)
    (List.replicate 1000 (Row.mk 5 (some "a b c d e") []))
    (List.replicate 1000 (Row.mk 3 (some "a b c d e") []))
    clean_take_replicate
  ⟨h.1, h.2 (Row.mk 3 (some "a b c d e") [])
    (by rw [List.mem_replicate]; exact ⟨by decide, rfl⟩)⟩

/-- C1: the two calling conventions of the tokenizer wrapper —
`tokenizer1` built with `text_col` and `encode_params` and used via
`fit_transform`/`transform`, versus the bare `tokenizer2` used via
`encode` on the text column as a list with the same keyword arguments —
produce identical token id output on the train and test dataframes,
whatever the underlying pretrained tokenizer computes. -/
theorem hf_two_conventions_equal (tok : String → List Nat)
    (train test : List Row) :
    X_text_tr1 tok train = X_text_tr2 tok train ∧
      X_text_te1 tok test = X_text_te2 tok test := by
  constructor
  · unfold X_text_tr1 X_text_tr2 HFPreprocessor.fit_transform
      HFPreprocessor.encode reviewTexts
    rw [List.map_map]
    rfl
  · unfold X_text_te1 X_text_te2 HFPreprocessor.transform
      HFPreprocessor.fit_transform HFPreprocessor.encode reviewTexts
    rw [List.map_map]
    rfl

/-- Every text encoded under the notebook's configuration (max_length
90, padding to max length, truncation enabled) is exactly 90 ids
long. -/
theorem hfEncode_notebook_length (tok : String → List Nat) (s : String) :
    (hfEncode tok notebookEncodeParams s).length = 90 := by
  unfold hfEncode applyPadTrunc notebookEncodeParams
  simp only [if_pos, if_true, List.length_append, List.length_replicate,
    List.length_take]
  omega

/-- C4: `tokenizer1` stores exactly the configuration max_length 90,
padding `"max_length"`, truncation enabled, special tokens added (the
same literal keyword arguments are passed to the two direct `encode`
calls, embedded in `X_text_tr2`/`X_text_te2`), and under it every row
of every one of the four tokenizer invocations is an id sequence of
length exactly 90. -/
theorem tokenizer_invocations_config (tok : String → List Nat)
    (train test : List Row) :
    tokenizer1.encode_params = some notebookEncodeParams ∧
      (∀ ids ∈ X_text_tr1 tok train, ids.length = 90) ∧
      (∀ ids ∈ X_text_te1 tok test, ids.length = 90) ∧
      (∀ ids ∈ X_text_tr2 tok train, ids.length = 90) ∧
      (∀ ids ∈ X_text_te2 tok test, ids.length = 90) := by
  refine ⟨rfl, ?_, ?_, ?_, ?_⟩
  · intro ids hids
    obtain ⟨x, _, rfl⟩ := List.mem_map.1 hids
    exact hfEncode_notebook_length tok _
  · intro ids hids
    obtain ⟨x, _, rfl⟩ := List.mem_map.1 hids
    exact hfEncode_notebook_length tok _
  · intro ids hids
    obtain ⟨x, _, rfl⟩ := List.mem_map.1 hids
    exact hfEncode_notebook_length tok _
  · intro ids hids
    obtain ⟨x, _, rfl⟩ := List.mem_map.1 hids
    exact hfEncode_notebook_length tok _

/-- Witness for C4 with the trivial tokenizer on a one-row train
dataframe: the single encoded row is the 90-id pad sequence. -/
theorem tokenizer_invocations_config_witness :
    tokenizer1.encode_params = some notebookEncodeParams ∧
      (List.replicate 90 hfPadId).length = 90 :=
  ⟨(tokenizer_invocations_config (fun _ => []) [] []).1,
    (tokenizer_invocations_config (fun _ => [])
        [Row.mk 5 (some "a b c d e") []] []).2.1
      (List.replicate 90 hfPadId) (by decide)⟩

/-- C5: the training call runs with objective `"multiclass"`, batch
size 64 and `n_epochs = 1` — so the trainer performs exactly one epoch
of `ceil(n/64)` steps, each reporting loss/accuracy/F1 — and the
evaluation computes accuracy and weighted F1 from the argmax of the
predicted class probabilities. -/
theorem trainer_fit_eval_spec (report : Nat → Nat → StepReport)
    (nSamples : Nat) (f1fn : List Int → List Nat → String → Rat)
    (preds : List (List Rat)) (testRatings : List Int) :
    notebookFitCall.objective = "multiclass" ∧
      notebookFitCall.n_epochs = 1 ∧
      notebookFitCall.batch_size = 64 ∧
      notebookFitCall.metrics = ["Accuracy", "F1Score"] ∧
      (trainerFit report nSamples notebookFitCall.n_epochs
          notebookFitCall.batch_size).length = 1 ∧
      (∀ epochSteps ∈ trainerFit report nSamples notebookFitCall.n_epochs
          notebookFitCall.batch_size,
        epochSteps.length = (nSamples + 63) / 64) ∧
      acc_text preds testRatings =
        accuracy_score testRatings (pred_text_class preds) ∧
      f1_text f1fn preds testRatings =
        f1fn testRatings (pred_text_class preds) "weighted" := by
  refine ⟨rfl, rfl, rfl, rfl, by simp [trainerFit, notebookFitCall], ?_,
    rfl, rfl⟩
  intro es hes
  obtain ⟨e, he, rfl⟩ := List.mem_map.1 hes
  simp [notebookFitCall]

/-- Witness for C5: one epoch over 800 train rows at batch size 64 has
`ceil(800/64) = 13` steps. -/
theorem trainer_fit_eval_spec_witness :
    ((List.range 13).map fun _ => StepReport.mk 0 0 0).length =
      (800 + 63) / 64 :=
  (trainer_fit_eval_spec (fun _ _ => StepReport.mk 0 0 0) 800
      (fun _ _ _ => 0) [] []).2.2.2.2.2.1
    ((List.range 13).map fun _ => StepReport.mk 0 0 0) (by decide)

/-- C6 counterexample: the notebook's own code handles missing
`review_text` values — on a one-row dataframe whose review text is
missing, the filtering step succeeds (it drops the row and returns
`ok []`) instead of surfacing a library exception. -/
theorem missing_value_handled_counterexample :
    filterStepExc [missingRow] = Except.ok [] ∧
      (filterStepExc [missingRow]).isOk = true :=
  ⟨rfl, rfl⟩

/-- C6 (amended): the notebook installs no `try/except` handler, so an
upstream library failure propagates unchanged through the pipeline,
and shape or type failures keep whatever exception the libraries raise;
the one exception is missing `review_text` values, which the notebook's
own filtering handles by dropping those rows without raising — the
filtering step always returns `ok` and no surviving row has a missing
review text. -/
theorem error_propagation_amended (e : String)
    (sel : List Row → Nat → List Row) (rows : List Row) :
    pipelineExc (Except.error e) sel = Except.error e ∧
      filterStepExc rows = Except.ok (rows.filter keepReview) ∧
      ∀ r ∈ shortReviewFilter rows, r.review_text.isSome = true := by
  refine ⟨rfl, ?_, ?_⟩
  · unfold filterStepExc
    rw [shortReviewFilter_eq_filter]
  · intro r hr
    rw [shortReviewFilter_eq_filter] at hr
    have hk := (List.mem_filter.1 hr).2
    cases hrt : r.review_text with
    | none => simp [keepReview, hrt] at hk
    | some s => simp [hrt]

/-- Witness for C6 (amended) on an upstream error and a one-row
dataframe with a five-word review. -/
theorem error_propagation_amended_witness :
    pipelineExc (Except.error "boom") (fun xs n => xs.take n) =
        Except.error "boom" ∧
      filterStepExc [Row.mk 4 (some "love this dress so much") []] =
        Except.ok ([Row.mk 4 (some "love this dress so much") []].filter
          keepReview) ∧
      (Row.mk 4 (some "love this dress so much") []).review_text.isSome =
        true :=
  have h := error_propagation_amended "boom" (fun xs n => xs.take n)
    [Row.mk 4 (some "love this dress so much") []]
  ⟨h.1, h.2.1, h.2.2 (Row.mk 4 (some "love this dress so much") []) (by decide)⟩

/-- C7: the composite `WideDeep` predictor of cell 16 is built with the
pretrained transformer wrapper as its only plugged-in branch — as the
`deeptext` submodule with prediction dimension 4 — while the wide and
deep tabular (and image) branches are absent. -/
theorem widedeep_construction_spec :
    widedeep_model.deeptext = some hf_model ∧
      widedeep_model.wide = none ∧
      widedeep_model.deeptabular = none ∧
      widedeep_model.deepimage = none ∧
      widedeep_model.pred_dim = 4 ∧
      pluggedBranchCount widedeep_model = 1 ∧
      hf_model.model_name = notebookModelName := by
  decide

/-- The scan of `np.argmax` never leaves the index range: starting from
a best index below the running position, the result stays below the
position plus the number of remaining entries. -/
theorem argmaxGo_lt (l : List Rat) :
    ∀ (i best : Nat) (bv : Rat), best < i →
      argmaxGo l i best bv < i + l.length := by
  induction l with
  | nil =>
    intro i best bv h
    simpa [argmaxGo] using h
  | cons y ys ih =>
    intro i best bv h
    unfold argmaxGo
    by_cases hlt : bv < y
    · rw [if_pos hlt]
      have h2 := ih (i + 1) i y (Nat.lt_succ_self i)
      simp only [List.length_cons]
      omega
    · rw [if_neg hlt]
      have h2 := ih (i + 1) best bv (Nat.lt_succ_of_lt h)
      simp only [List.length_cons]
      omega

/-- The result of `np.argmax` on a non-empty row is a valid index into
the row. -/
theorem npArgmax_lt_length (l : List Rat) (h : l ≠ []) :
    npArgmax l < l.length := by
  cases l with
  | nil => exact absurd rfl h
  | cons x xs =>
    have h2 := argmaxGo_lt xs 1 0 x Nat.one_pos
    simp only [npArgmax, List.length_cons]
    omega

/-- C9: the prediction dimension 4 of the composite model equals the
number of distinct class labels `{0,1,2,3}` produced by the rating
remapping, and every predicted class — the argmax of a length-4
`predict_proba` row — lies in that same label set, so the accuracy/F1
computations compare labels from matching domains. -/
theorem pred_class_labels_match (probs : Nat → Nat → Rat) (nSamples : Nat)
    (c : Nat)
    (hc : c ∈ pred_text_class (predict_proba probs widedeep_model nSamples)) :
    remappedClasses = [0, 1, 2, 3] ∧
      widedeep_model.pred_dim = remappedClasses.length ∧
      c < widedeep_model.pred_dim ∧ (c : Int) ∈ remappedClasses := by
  have hclasses : remappedClasses = [0, 1, 2, 3] := by decide
  obtain ⟨row, hrow, rfl⟩ := List.mem_map.1 hc
  obtain ⟨i, _, rfl⟩ := List.mem_map.1 hrow
  have hlen : ((List.range widedeep_model.pred_dim).map fun k =>
      probs i k).length = 4 := by
    simp [widedeep_model]
  have hne : ((List.range widedeep_model.pred_dim).map fun k =>
      probs i k) ≠ [] := by
    intro hnil
    rw [hnil] at hlen
    simp at hlen
  have hlt := npArgmax_lt_length _ hne
  rw [hlen] at hlt
  refine ⟨hclasses, by rw [hclasses]; rfl, hlt, ?_⟩
  rw [hclasses]
  have h4 : npArgmax ((List.range widedeep_model.pred_dim).map fun k =>
      probs i k) = 0 ∨
      npArgmax ((List.range widedeep_model.pred_dim).map fun k =>
        probs i k) = 1 ∨
      npArgmax ((List.range widedeep_model.pred_dim).map fun k =>
        probs i k) = 2 ∨
      npArgmax ((List.range widedeep_model.pred_dim).map fun k =>
        probs i k) = 3 := by
    omega
  rcases h4 with h4 | h4 | h4 | h4 <;> rw [h4] <;> decide

/-- Witness for C9: the constant-zero probability model on one test
row predicts class 0, a member of the remapped label set. -/
theorem pred_class_labels_match_witness :
    remappedClasses = [0, 1, 2, 3] ∧
      widedeep_model.pred_dim = remappedClasses.length ∧
      0 < widedeep_model.pred_dim ∧ ((0 : Nat) : Int) ∈ remappedClasses :=
  pred_class_labels_match (fun _ _ => 0) 1 0 (by decide)

end HFWD
